import Mathlib

/-!
# Verification of `src/lib/db.ts` (database access helper)

Shallow embedding of the single-file database helper:

* `sql` — the tagged-template parameterized-query builder (pure, embedded
  directly from the source loop);
* `moduleLoad` — the load-time `DATABASE_URL` check and pool construction;
* `query` / `closePool` — the query dispatcher and shutdown helper over a
  pool model (the `pg` library's pool behaviour is modelled from the spec);
* `init` — the schema bootstrap, embedded as explicit state passing over a
  client whose statements (BEGIN / CREATE ... IF NOT EXISTS / COMMIT /
  ROLLBACK) act on a database state with transactional semantics, with an
  oracle injecting failures at arbitrary statement positions.
-/

namespace Db

/-- The `(text, values)` pair produced by the builder (pg's `QueryConfig`).
Values are kept abstract (`α` stands for the TypeScript `any`). -/
structure QueryConfig (α : Type) where
  text : String
  values : List α
deriving DecidableEq, Repr

/-- The loop body of `sql` from `src/lib/db.ts` lines 18–29, with the mutable
`text`/`params` accumulators made explicit.  The source iterates `i` over
`strings`; `values[i]` exists iff the remaining value list is nonempty, and
after `params.push(values[i])` the placeholder appended is
`"$" ++ toString params.length`. -/
def sqlLoop {α : Type} : List String → List α → String → List α → String × List α
  | [], _, text, params => (text, params)
  | s :: rest, [], text, params => sqlLoop rest [] (text ++ s) params
  | s :: rest, v :: vs, text, params =>
      sqlLoop rest vs (text ++ s ++ "$" ++ toString (params ++ [v]).length) (params ++ [v])

/-- `sql` from `src/lib/db.ts`: runs the loop from empty accumulators and
packages the result as a `QueryConfig`. -/
def sql {α : Type} (strings : List String) (values : List α) : QueryConfig α :=
  let r := sqlLoop strings values "" []
  { text := r.1, values := r.2 }

/-- Specification-side description of the produced text: the fragments
concatenated left to right, with the strictly sequential placeholders
`$(k+1), $(k+2), …` inserted after each fragment while values remain, and any
trailing fragments concatenated as-is once the values are exhausted. -/
def specTextFrom : List String → Nat → Nat → String
  | [], _, _ => ""
  | s :: rest, 0, k => s ++ specTextFrom rest 0 k
  | s :: rest, n + 1, k => s ++ ("$" ++ toString (k + 1)) ++ specTextFrom rest n (k + 1)

theorem string_append_empty (s : String) : s ++ "" = s := by
  cases s
  simp [String.instAppend, String.append]

theorem sqlLoop_eq {α : Type} (strings : List String) :
    ∀ (values : List α) (text : String) (params : List α),
      sqlLoop strings values text params =
        (text ++ specTextFrom strings values.length params.length,
         params ++ values.take strings.length) := by
  induction strings with
  | nil =>
      intro values text params
      simp [sqlLoop, specTextFrom, string_append_empty]
  | cons s rest ih =>
      intro values text params
      cases values with
      | nil =>
          simp [sqlLoop, ih, specTextFrom, String.append_assoc]
      | cons v vs =>
          simp [sqlLoop, ih, specTextFrom, String.append_assoc]

/-- Characterization of `sql` on arbitrary input: the text is the fragments
interleaved with `$1, $2, …` (one placeholder per consumed value, trailing
fragments plain), and the parameter list is the first `strings.length` input
values in order. -/
theorem sql_eq {α : Type} (strings : List String) (values : List α) :
    sql strings values =
      { text := specTextFrom strings values.length 0,
        values := values.take strings.length } := by
  simp [sql, sqlLoop_eq]

/-- Concrete stand-in for the TypeScript `any` values used in the spec's
worked example (`5` and `"x"`). -/
inductive Value where
  | vint (n : Int)
  | vstr (s : String)
deriving DecidableEq, Repr

/-- C1: for well-formed input (`strings.length = values.length + 1`) the text
is the fragments concatenated with the placeholders `$1..$n` inserted between
them left to right, the returned parameter list is exactly the input value
list, and the text does not depend on the values at all (no value is
textually embedded): any equally long value list yields the same text. -/
theorem sql_wellformed {α : Type} (strings : List String) (values : List α)
    (h : strings.length = values.length + 1) :
    (sql strings values).text = specTextFrom strings values.length 0 ∧
    (sql strings values).values = values ∧
    ∀ values2 : List α, values2.length = values.length →
      (sql strings values2).text = (sql strings values).text := by
  have hle : values.length ≤ strings.length := by omega
  refine ⟨by rw [sql_eq], ?_, ?_⟩
  · rw [sql_eq]
    exact List.take_of_length_le hle
  · intro values2 h2
    rw [sql_eq, sql_eq, h2]

/-- Witness for C1 at the spec's worked example: fragments
`["SELECT * FROM t WHERE a = ", " AND b = ", ""]` with values `[5, "x"]`. -/
theorem sql_wellformed_witness :
    (sql ["SELECT * FROM t WHERE a = ", " AND b = ", ""]
        [Value.vint 5, Value.vstr "x"]).text =
      "SELECT * FROM t WHERE a = $1 AND b = $2" ∧
    (sql ["SELECT * FROM t WHERE a = ", " AND b = ", ""]
        [Value.vint 5, Value.vstr "x"]).values = [Value.vint 5, Value.vstr "x"] := by
  have h := sql_wellformed ["SELECT * FROM t WHERE a = ", " AND b = ", ""]
    [Value.vint 5, Value.vstr "x"] (by decide)
  exact ⟨h.1.trans rfl, h.2.1⟩

/-- C8: placeholder numbering is strictly sequential from `$1` (one fresh
placeholder per consumed value, by position, so a value interpolated twice
gets two distinct numbers — instantiated explicitly in the last conjunct),
and for any input — in particular when there are more fragments than
values + 1 — the builder totally succeeds, concatenating the extra trailing
fragments as-is. -/
theorem sql_sequential_numbering {α : Type} (strings : List String) (values : List α) :
    (sql strings values).text = specTextFrom strings values.length 0 ∧
    (sql strings values).values = values.take strings.length ∧
    ∀ (a b c : String) (v : α),
      sql [a, b, c] [v, v] =
        { text := a ++ "$1" ++ b ++ "$2" ++ c, values := [v, v] } := by
  refine ⟨by rw [sql_eq], by rw [sql_eq], ?_⟩
  intro a b c v
  rw [sql_eq]
  simp only [List.length_cons, List.length_nil, List.take_succ_cons, List.take_nil,
    specTextFrom]
  have h1 : ("$" ++ toString (0 + 1) : String) = "$1" := rfl
  have h2 : ("$" ++ toString (0 + 1 + 1) : String) = "$2" := rfl
  rw [h1, h2, string_append_empty]
  simp [String.append_assoc]

/-- C9: when there are at least as many values as fragments, the excess
values are silently dropped — the parameter list is the first
`strings.length` values, every fragment is followed by its placeholder, and
no error occurs (the builder is total). -/
theorem sql_excess_values_dropped {α : Type} (strings : List String) (values : List α)
    (h : strings.length ≤ values.length) :
    (sql strings values).values = values.take strings.length ∧
    (sql strings values).text = specTextFrom strings values.length 0 := by
  rw [sql_eq]
  exact ⟨rfl, rfl⟩

/-- Witness for C9: two fragments, three values — the third value is dropped
and each fragment receives a placeholder. -/
theorem sql_excess_values_dropped_witness :
    (sql ["a", "b"] ([1, 2, 3] : List Nat)).values = [1, 2] ∧
    (sql ["a", "b"] ([1, 2, 3] : List Nat)).text = "a$1b$2" := by
  have h := sql_excess_values_dropped ["a", "b"] ([1, 2, 3] : List Nat) (by decide)
  exact ⟨h.1.trans rfl, h.2.trans rfl⟩

/-- The pool configuration object built at module load
(`src/lib/db.ts` lines 9–15). -/
structure PoolConfig where
  connectionString : String
  max : Nat
  idleTimeoutMillis : Nat
deriving DecidableEq, Repr

/-- Outcome of loading the module: either the load-time throw (with the
thrown message) and no pool, or a constructed pool configuration. -/
inductive LoadResult where
  | failed (message : String)
  | loaded (pool : PoolConfig)
deriving DecidableEq, Repr

/-- Module-load sequence of `src/lib/db.ts` lines 4–15: read
`process.env.DATABASE_URL` (`none` = variable absent), throw on a falsy
value (`undefined` or the empty string, per the `if (!connectionString)`
test), otherwise construct the pool with `max := 2` and
`idleTimeoutMillis := 30000`. -/
def moduleLoad (databaseUrl : Option String) : LoadResult :=
  match databaseUrl with
  | none => .failed "Missing DATABASE_URL environment variable"
  | some cs =>
      if cs = "" then .failed "Missing DATABASE_URL environment variable"
      else .loaded { connectionString := cs, max := 2, idleTimeoutMillis := 30000 }

/-- C3 counterexample: `DATABASE_URL` set to the empty string is a present
configuration value, yet the module throws and constructs no pool — the
claim's "for every load where the value is present, the pool is constructed"
fails at this input. -/
theorem moduleLoad_empty_string_throws :
    moduleLoad (some "") = LoadResult.failed "Missing DATABASE_URL environment variable" :=
  rfl

/-- C3 (amended): if `DATABASE_URL` is absent — or present but empty, which
the load-time falsiness test treats as absent — the module throws
synchronously and no pool is constructed; for every load where the value is
present and non-empty, the pool is constructed from it. -/
theorem moduleLoad_spec (databaseUrl : Option String) :
    (databaseUrl = none ∨ databaseUrl = some "" →
      moduleLoad databaseUrl = .failed "Missing DATABASE_URL environment variable") ∧
    (∀ cs : String, databaseUrl = some cs → cs ≠ "" →
      moduleLoad databaseUrl =
        .loaded { connectionString := cs, max := 2, idleTimeoutMillis := 30000 }) := by
  constructor
  · rintro (rfl | rfl) <;> rfl
  · rintro cs rfl hcs
    simp [moduleLoad, hcs]

/-- Witness for C3 (amended), at an absent value and at a present non-empty
value. -/
theorem moduleLoad_spec_witness :
    moduleLoad none = .failed "Missing DATABASE_URL environment variable" ∧
    moduleLoad (some "postgres:db") =
      .loaded { connectionString := "postgres:db", max := 2, idleTimeoutMillis := 30000 } :=
  ⟨(moduleLoad_spec none).1 (Or.inl rfl),
   (moduleLoad_spec (some "postgres:db")).2 "postgres:db" rfl (by decide)⟩

/-- Runtime state of the connection pool.  Modelled from the spec: the `pg`
library's `Pool` is not part of this repository; per §4.1/§7 `end()` closes
the pool and any subsequent use fails with a `ConnectionError`. -/
structure PgPool where
  ended : Bool
deriving DecidableEq, Repr

/-- Errors surfaced to callers (spec §7 taxonomy; only the constructors the
claims need). -/
inductive DbError where
  | connectionError
  | queryError
deriving DecidableEq, Repr

/-- What a successful execution submits to the database: the SQL text and
the bound parameter values. -/
structure ExecutedQuery (α : Type) where
  text : String
  boundValues : List α
deriving DecidableEq, Repr

/-- Modelled from the spec: `pg`'s `pool.query(config)` — rejects with a
`ConnectionError` once the pool has ended, otherwise binds exactly the
config's values to the config's text. -/
def poolQueryConfig {α : Type} (p : PgPool) (c : QueryConfig α) :
    Except DbError (ExecutedQuery α) :=
  if p.ended then .error .connectionError
  else .ok { text := c.text, boundValues := c.values }

/-- Modelled from the spec: `pg`'s `pool.query(text, params)` — rejects with
a `ConnectionError` once the pool has ended, otherwise binds the separately
supplied parameter list (empty when omitted). -/
def poolQueryText {α : Type} (p : PgPool) (text : String) (params : Option (List α)) :
    Except DbError (ExecutedQuery α) :=
  if p.ended then .error .connectionError
  else .ok { text := text, boundValues := params.getD [] }

/-- Modelled from the spec: `pg`'s `pool.end()` — drains and closes the
pool. -/
def poolEnd (p : PgPool) : PgPool :=
  { p with ended := true }

/-- The `string | QueryConfig` first argument of `query`
(`src/lib/db.ts` line 32). -/
inductive TextOrConfig (α : Type) where
  | raw (text : String)
  | config (c : QueryConfig α)
deriving DecidableEq, Repr

/-- `query` from `src/lib/db.ts` lines 32–37: a raw string is dispatched as
`pool.query(text, params)`; a pre-built config is dispatched as
`pool.query(config)`, without passing `params` along. -/
def query {α : Type} (p : PgPool) (textOrConfig : TextOrConfig α)
    (params : Option (List α)) : Except DbError (ExecutedQuery α) :=
  match textOrConfig with
  | .raw text => poolQueryText p text params
  | .config c => poolQueryConfig p c

/-- `closePool` from `src/lib/db.ts` lines 127–129: awaits `pool.end()`. -/
def closePool (p : PgPool) : PgPool :=
  poolEnd p

/-- C7: every query issued through the module after `closePool` has completed
fails with a `ConnectionError` — for both the raw-text and the pre-built
config call shapes, and whatever parameter list is supplied. -/
theorem query_after_closePool_fails {α : Type} (p : PgPool)
    (textOrConfig : TextOrConfig α) (params : Option (List α)) :
    query (closePool p) textOrConfig params = .error .connectionError := by
  cases textOrConfig <;>
    simp [query, closePool, poolEnd, poolQueryText, poolQueryConfig]

/-- C10: when `query` receives a pre-built config, the separately supplied
parameter list is ignored entirely — the result is the same for any two
parameter arguments, and on a live pool exactly the config's own values are
bound to the config's text. -/
theorem query_config_ignores_params {α : Type} (p : PgPool) (c : QueryConfig α)
    (params1 params2 : Option (List α)) :
    query p (.config c) params1 = query p (.config c) params2 ∧
    query { ended := false } (.config c) params1 =
      .ok { text := c.text, boundValues := c.values } := by
  exact ⟨rfl, rfl⟩

/-- Persistent database state seen by the schema bootstrap: which
extensions, tables and indexes exist (each recorded by name, in creation
order). -/
structure DbState where
  extensions : List String
  tables : List String
  indexes : List String
deriving DecidableEq, Repr

/-- An empty, freshly provisioned database. -/
def emptyDb : DbState :=
  { extensions := [], tables := [], indexes := [] }

/-- The statements `init` issues on its client (`src/lib/db.ts` lines
49–114), abstracted to the parts of the SQL that matter for the claims:
statement kind and object name (`createIndex` also records the indexed
table). -/
inductive Stmt where
  | begin
  | commit
  | rollback
  | createExtension (name : String)
  | createTable (name : String)
  | createIndex (name : String) (table : String)
deriving DecidableEq, Repr

/-- The `IF NOT EXISTS` create semantics on a database state: add the named
object unless it already exists; `BEGIN`/`COMMIT`/`ROLLBACK` are handled at
the client level, not here. -/
def applyStmt (db : DbState) (st : Stmt) : DbState :=
  match st with
  | .createExtension n =>
      if n ∈ db.extensions then db else { db with extensions := db.extensions ++ [n] }
  | .createTable n =>
      if n ∈ db.tables then db else { db with tables := db.tables ++ [n] }
  | .createIndex n _ =>
      if n ∈ db.indexes then db else { db with indexes := db.indexes ++ [n] }
  | _ => db

/-- State of the single client `init` checks out: the committed database
state, the uncommitted in-transaction state (`some` while a transaction is
open), how many statements have been issued, and the issued-statement
trace. -/
structure ClientState where
  committed : DbState
  pending : Option DbState
  stmtCount : Nat
  trace : List Stmt
deriving DecidableEq, Repr

/-- Effect of a successfully executed statement on the client: `BEGIN` opens
a transaction over the committed state, `COMMIT` publishes the pending
state, `ROLLBACK` discards it, and creates apply to the pending state while
a transaction is open (to the committed state otherwise). -/
def applyClient (s : ClientState) (st : Stmt) : ClientState :=
  match st with
  | .begin => { s with pending := some s.committed }
  | .commit =>
      match s.pending with
      | some db => { s with committed := db, pending := none }
      | none => s
  | .rollback => { s with pending := none }
  | st =>
      match s.pending with
      | some db => { s with pending := some (applyStmt db st) }
      | none => { s with committed := applyStmt s.committed st }

/-- Book-keeping for one issued statement: count it and record it in the
trace (this happens whether or not the database reports an error for it). -/
def bump (s : ClientState) (st : Stmt) : ClientState :=
  { s with stmtCount := s.stmtCount + 1, trace := s.trace ++ [st] }

/-- Issue one statement on the client.  The oracle decides, by statement
position, whether the database reports an error for it (modelling arbitrary
runtime failures); a failed statement changes no database state.  Returns
the new client state and whether the statement succeeded. -/
def execStmt (oracle : Nat → Bool) (s : ClientState) (st : Stmt) :
    ClientState × Bool :=
  if oracle s.stmtCount then (bump s st, false)
  else (applyClient (bump s st) st, true)

/-- Issue a sequence of statements, stopping at the first failure (the
`await`s in the `try` block short-circuit to the `catch`). -/
def runStmts (oracle : Nat → Bool) : List Stmt → ClientState → ClientState × Bool
  | [], s => (s, true)
  | st :: rest, s =>
      let r := execStmt oracle s st
      if r.2 then runStmts oracle rest r.1 else (r.1, false)

/-- The statements of `init`'s `try` block, in source order
(`src/lib/db.ts` lines 49–109). -/
def initStmts : List Stmt :=
  [Stmt.begin,
   Stmt.createExtension "pgcrypto",
   Stmt.createTable "users",
   Stmt.createTable "sessions",
   Stmt.createTable "verification_tokens",
   Stmt.createTable "chat_sessions",
   Stmt.createIndex "idx_sessions_user_id" "sessions",
   Stmt.createIndex "idx_chat_user_id" "chat_sessions",
   Stmt.createIndex "idx_verification_identifier" "verification_tokens",
   Stmt.commit]

/-- The client state right after `pool.connect()` in `init`. -/
def initialClient (db0 : DbState) : ClientState :=
  { committed := db0, pending := none, stmtCount := 0, trace := [] }

/-- Outcome of one `init` run: the committed database state afterwards,
whether the client was released, whether `init` resolved (`ok = true`) or
re-threw (`ok = false`), and the full statement trace. -/
structure InitResult where
  db : DbState
  released : Bool
  ok : Bool
  trace : List Stmt
deriving DecidableEq, Repr

/-- `init` from `src/lib/db.ts` lines 46–121: connect; run the `try` block's
statements in order; on any failure, the `catch` issues `ROLLBACK` and
re-throws (`ok := false`); the `finally` releases the client on every
path. -/
def init (oracle : Nat → Bool) (db0 : DbState) : InitResult :=
  let tryRun := runStmts oracle initStmts (initialClient db0)
  if tryRun.2 then
    { db := tryRun.1.committed, released := true, ok := true, trace := tryRun.1.trace }
  else
    let catchRun := execStmt oracle tryRun.1 Stmt.rollback
    { db := catchRun.1.committed, released := true, ok := false, trace := catchRun.1.trace }

/-- The oracle that injects no failures: the run where every statement
succeeds. -/
def noFailure : Nat → Bool :=
  fun _ => false

/-- The eight `CREATE ... IF NOT EXISTS` statements of the bootstrap, in
source order. -/
def createStmts : List Stmt :=
  [Stmt.createExtension "pgcrypto",
   Stmt.createTable "users",
   Stmt.createTable "sessions",
   Stmt.createTable "verification_tokens",
   Stmt.createTable "chat_sessions",
   Stmt.createIndex "idx_sessions_user_id" "sessions",
   Stmt.createIndex "idx_chat_user_id" "chat_sessions",
   Stmt.createIndex "idx_verification_identifier" "verification_tokens"]

theorem initStmts_decompose :
    initStmts = Stmt.begin :: (createStmts ++ [Stmt.commit]) :=
  rfl

/-- Whether a statement is one of the three create kinds. -/
def Stmt.isCreate : Stmt → Bool
  | .createExtension _ => true
  | .createTable _ => true
  | .createIndex _ _ => true
  | _ => false

theorem applyClient_trace (s : ClientState) (st : Stmt) :
    (applyClient s st).trace = s.trace := by
  cases st <;> cases hp : s.pending <;> simp [applyClient, hp]

theorem execStmt_fail (oracle : Nat → Bool) (s : ClientState) (st : Stmt)
    (h : oracle s.stmtCount = true) :
    execStmt oracle s st = (bump s st, false) := by
  simp [execStmt, h]

theorem execStmt_success (oracle : Nat → Bool) (s : ClientState) (st : Stmt)
    (h : oracle s.stmtCount = false) :
    execStmt oracle s st = (applyClient (bump s st) st, true) := by
  simp [execStmt, h]

theorem execStmt_fst_trace (oracle : Nat → Bool) (s : ClientState) (st : Stmt) :
    (execStmt oracle s st).1.trace = s.trace ++ [st] := by
  cases h : oracle s.stmtCount
  · rw [execStmt_success oracle s st h, applyClient_trace]
    rfl
  · rw [execStmt_fail oracle s st h]
    rfl

theorem execStmt_rollback_committed (oracle : Nat → Bool) (s : ClientState) :
    (execStmt oracle s Stmt.rollback).1.committed = s.committed := by
  cases h : oracle s.stmtCount
  · rw [execStmt_success oracle s Stmt.rollback h]
    rfl
  · rw [execStmt_fail oracle s Stmt.rollback h]
    rfl

theorem applyClient_create (s : ClientState) (st : Stmt) (d : DbState)
    (hc : st.isCreate = true) (hp : s.pending = some d) :
    applyClient s st = { s with pending := some (applyStmt d st) } := by
  cases st <;> simp [Stmt.isCreate] at hc <;> simp [applyClient, hp]

/-- While a transaction is open, running any sequence of create statements —
however many of them the oracle fails — leaves the committed state
untouched and the transaction open. -/
theorem runStmts_creates (oracle : Nat → Bool) (l : List Stmt)
    (hl : ∀ st ∈ l, st.isCreate = true) :
    ∀ (s : ClientState) (d : DbState), s.pending = some d →
      (runStmts oracle l s).1.committed = s.committed ∧
      ∃ d2, (runStmts oracle l s).1.pending = some d2 := by
  induction l with
  | nil =>
      intro s d hp
      exact ⟨rfl, d, hp⟩
  | cons st rest ih =>
      intro s d hp
      have hst : st.isCreate = true := hl st (by simp)
      have hrest : ∀ x ∈ rest, x.isCreate = true := fun x hx => hl x (by simp [hx])
      show (if (execStmt oracle s st).2
              then runStmts oracle rest (execStmt oracle s st).1
              else ((execStmt oracle s st).1, false)).1.committed = s.committed ∧
           ∃ d2, (if (execStmt oracle s st).2
              then runStmts oracle rest (execStmt oracle s st).1
              else ((execStmt oracle s st).1, false)).1.pending = some d2
      cases h : oracle s.stmtCount
      · rw [execStmt_success oracle s st h,
          applyClient_create (bump s st) st d hst hp]
        simpa [bump] using ih hrest { bump s st with pending := some (applyStmt d st) }
          (applyStmt d st) rfl
      · rw [execStmt_fail oracle s st h]
        exact ⟨rfl, d, hp⟩

theorem runStmts_append (oracle : Nat → Bool) (l1 l2 : List Stmt) :
    ∀ s : ClientState,
      runStmts oracle (l1 ++ l2) s =
        (if (runStmts oracle l1 s).2
          then runStmts oracle l2 (runStmts oracle l1 s).1
          else runStmts oracle l1 s) := by
  induction l1 with
  | nil => intro s; simp [runStmts]
  | cons st rest ih =>
      intro s
      show (if (execStmt oracle s st).2
              then runStmts oracle (rest ++ l2) (execStmt oracle s st).1
              else ((execStmt oracle s st).1, false)) = _
      cases hflag : (execStmt oracle s st).2
      · simp [runStmts, hflag]
      · simp [runStmts, hflag, ih]

theorem runStmts_cons (oracle : Nat → Bool) (st : Stmt) (rest : List Stmt)
    (s : ClientState) :
    runStmts oracle (st :: rest) s =
      (if (execStmt oracle s st).2
        then runStmts oracle rest (execStmt oracle s st).1
        else ((execStmt oracle s st).1, false)) :=
  rfl

/-- If the `try` block of `init` fails, its client still has the initial
committed state. -/
theorem runStmts_initStmts_committed (oracle : Nat → Bool) (db0 : DbState)
    (h : (runStmts oracle initStmts (initialClient db0)).2 = false) :
    (runStmts oracle initStmts (initialClient db0)).1.committed = db0 := by
  rw [initStmts_decompose, runStmts_cons] at h ⊢
  cases h0 : oracle (initialClient db0).stmtCount
  · -- BEGIN succeeds and opens the transaction over db0
    rw [execStmt_success oracle (initialClient db0) Stmt.begin h0] at h ⊢
    simp only [if_true] at h ⊢
    set sB := applyClient (bump (initialClient db0) Stmt.begin) Stmt.begin with hsB
    rw [runStmts_append] at h ⊢
    obtain ⟨hcom, d2, hpend⟩ :=
      runStmts_creates oracle createStmts (by decide) sB db0 rfl
    cases hflag : (runStmts oracle createStmts sB).2
    · -- some create failed: the result is the creates run itself
      rw [hflag] at h
      simp only [Bool.false_eq_true, if_false] at h ⊢
      exact hcom
    · -- all creates succeeded: the COMMIT step decides the flag
      rw [hflag] at h
      simp only [if_true] at h ⊢
      rw [runStmts_cons] at h ⊢
      cases hc : oracle (runStmts oracle createStmts sB).1.stmtCount
      · -- COMMIT succeeds: the whole try block succeeds, contradicting h
        exfalso
        rw [execStmt_success oracle (runStmts oracle createStmts sB).1
          Stmt.commit hc] at h
        simp [runStmts] at h
      · -- COMMIT fails: the client keeps its committed state
        rw [execStmt_fail oracle (runStmts oracle createStmts sB).1
          Stmt.commit hc] at h ⊢
        simp only [Bool.false_eq_true, if_false] at h ⊢
        exact hcom
  · -- BEGIN itself fails: nothing ran
    rw [execStmt_fail oracle (initialClient db0) Stmt.begin h0] at h ⊢
    simp only [Bool.false_eq_true, if_false] at h ⊢
    rfl

/-- C2: if any statement of the bootstrap transaction fails (whatever the
failure position chosen by the oracle), `init` issues a `ROLLBACK`, the
committed database state is exactly the initial one — nothing created
earlier in the transaction persists — and the error is re-thrown
(`ok = false`) rather than swallowed. -/
theorem init_failure_all_or_nothing (oracle : Nat → Bool) (db0 : DbState)
    (h : (runStmts oracle initStmts (initialClient db0)).2 = false) :
    (init oracle db0).ok = false ∧
    Stmt.rollback ∈ (init oracle db0).trace ∧
    (init oracle db0).db = db0 := by
  have hdb := runStmts_initStmts_committed oracle db0 h
  have htrace := execStmt_fst_trace oracle
    (runStmts oracle initStmts (initialClient db0)).1 Stmt.rollback
  have hroll := execStmt_rollback_committed oracle
    (runStmts oracle initStmts (initialClient db0)).1
  refine ⟨?_, ?_, ?_⟩
  · simp [init, h]
  · simp only [init, h, Bool.false_eq_true, if_false]
    rw [htrace]
    simp
  · simp only [init, h, Bool.false_eq_true, if_false]
    rw [hroll]
    exact hdb

/-- Witness for C2: the oracle fails the fourth statement — the creation of
the second table (`sessions`) — against an empty database; the run rolls
back, re-throws, and leaves the database empty. -/
theorem init_failure_all_or_nothing_witness :
    (runStmts (fun k => k == 3) initStmts (initialClient emptyDb)).2 = false ∧
    (init (fun k => k == 3) emptyDb).ok = false ∧
    Stmt.rollback ∈ (init (fun k => k == 3) emptyDb).trace ∧
    (init (fun k => k == 3) emptyDb).db = emptyDb := by
  have h : (runStmts (fun k => k == 3) initStmts (initialClient emptyDb)).2 = false := by
    decide
  exact ⟨h, init_failure_all_or_nothing (fun k => k == 3) emptyDb h⟩

/-- One successfully executed statement, as a fold step. -/
def stepClient (s : ClientState) (st : Stmt) : ClientState :=
  applyClient (bump s st) st

theorem runStmts_noFailure (l : List Stmt) :
    ∀ s : ClientState,
      runStmts noFailure l s = (List.foldl stepClient s l, true) := by
  induction l with
  | nil => intro s; rfl
  | cons st rest ih => intro s; exact ih (stepClient s st)

theorem foldClient_trace (l : List Stmt) :
    ∀ s : ClientState,
      (List.foldl stepClient s l).trace = s.trace ++ l := by
  induction l with
  | nil => intro s; simp
  | cons st rest ih =>
      intro s
      rw [List.foldl_cons, ih]
      show (applyClient (bump s st) st).trace ++ rest = _
      rw [applyClient_trace]
      simp [bump]

theorem foldClient_creates (l : List Stmt) (hl : ∀ st ∈ l, st.isCreate = true) :
    ∀ (s : ClientState) (d : DbState), s.pending = some d →
      (List.foldl stepClient s l).committed = s.committed ∧
      (List.foldl stepClient s l).pending = some (List.foldl applyStmt d l) := by
  induction l with
  | nil => intro s d hp; exact ⟨rfl, by simpa using hp⟩
  | cons st rest ih =>
      intro s d hp
      have hst : st.isCreate = true := hl st (by simp)
      have hrest : ∀ x ∈ rest, x.isCreate = true := fun x hx => hl x (by simp [hx])
      rw [List.foldl_cons]
      have hstep : stepClient s st = { bump s st with pending := some (applyStmt d st) } := by
        show applyClient (bump s st) st = _
        exact applyClient_create (bump s st) st d hst hp
      rw [hstep]
      simpa [bump] using
        ih hrest { bump s st with pending := some (applyStmt d st) } (applyStmt d st) rfl

/-- Closed form of a failure-free `init` run: all statements succeed, the
client folds through all of them, and the run resolves with the client
released. -/
theorem init_noFailure_eq (db0 : DbState) :
    init noFailure db0 =
      { db := (List.foldl stepClient (initialClient db0) initStmts).committed,
        released := true,
        ok := true,
        trace := (List.foldl stepClient (initialClient db0) initStmts).trace } := by
  simp only [init]
  rw [runStmts_noFailure initStmts (initialClient db0)]
  rfl

/-- C5: with no failures, `init` executes on its one client, in source
order: `BEGIN`; the `pgcrypto` extension; the `users`, `sessions`,
`verification_tokens`, `chat_sessions` tables; the three indexes on
`sessions(user_id)`, `chat_sessions(user_id)`,
`verification_tokens(identifier)`; `COMMIT` — and resolves. -/
theorem init_success_statement_order (db0 : DbState) :
    (init noFailure db0).ok = true ∧
    (init noFailure db0).trace =
      [Stmt.begin,
       Stmt.createExtension "pgcrypto",
       Stmt.createTable "users",
       Stmt.createTable "sessions",
       Stmt.createTable "verification_tokens",
       Stmt.createTable "chat_sessions",
       Stmt.createIndex "idx_sessions_user_id" "sessions",
       Stmt.createIndex "idx_chat_user_id" "chat_sessions",
       Stmt.createIndex "idx_verification_identifier" "verification_tokens",
       Stmt.commit] := by
  rw [init_noFailure_eq]
  refine ⟨rfl, ?_⟩
  show (List.foldl stepClient (initialClient db0) initStmts).trace = _
  rw [foldClient_trace]
  rfl

/-- C6: `init` releases its client on every exit path — for every failure
pattern the oracle can inject (none, a failing statement, or a failing
`ROLLBACK` after a failing statement) and every initial database state. -/
theorem init_always_releases (oracle : Nat → Bool) (db0 : DbState) :
    (init oracle db0).released = true := by
  cases hflag : (runStmts oracle initStmts (initialClient db0)).2 <;>
    simp [init, hflag]

/-- On the failure-free run, `init` publishes exactly the fold of its eight
`IF NOT EXISTS` creates over the initial state. -/
theorem init_noFailure_db (db0 : DbState) :
    (init noFailure db0).db = List.foldl applyStmt db0 createStmts := by
  refine (congrArg InitResult.db (init_noFailure_eq db0)).trans ?_
  dsimp only
  rw [initStmts_decompose, List.foldl_cons, List.foldl_append]
  obtain ⟨hcom, hpend⟩ := foldClient_creates createStmts (by decide)
    (stepClient (initialClient db0) Stmt.begin) db0 rfl
  show (stepClient (List.foldl stepClient
      (stepClient (initialClient db0) Stmt.begin) createStmts) Stmt.commit).committed = _
  show (applyClient (bump (List.foldl stepClient
      (stepClient (initialClient db0) Stmt.begin) createStmts) Stmt.commit)
    Stmt.commit).committed = _
  simp [applyClient, bump, hpend]

theorem applyStmt_tables_subset (db : DbState) (st : Stmt) :
    db.tables ⊆ (applyStmt db st).tables := by
  cases st <;> simp only [applyStmt] <;> try split
  all_goals first
    | exact fun x hx => hx
    | exact List.subset_append_left _ _
    | simp

theorem foldl_applyStmt_tables_subset (l : List Stmt) :
    ∀ db : DbState, db.tables ⊆ (List.foldl applyStmt db l).tables := by
  induction l with
  | nil => intro db; exact fun x hx => hx
  | cons st rest ih =>
      intro db
      exact fun x hx => ih (applyStmt db st) (applyStmt_tables_subset db st hx)

/-- C4: the bootstrap is idempotent — run once against the empty database it
creates exactly the four tables and three indexes (each once, no
duplicates); run a second time on the resulting state it changes nothing;
and it never drops an existing table (every table of the initial state
survives, for any initial state). -/
theorem init_idempotent :
    (init noFailure emptyDb).db =
      { extensions := ["pgcrypto"],
        tables := ["users", "sessions", "verification_tokens", "chat_sessions"],
        indexes := ["idx_sessions_user_id", "idx_chat_user_id",
          "idx_verification_identifier"] } ∧
    (init noFailure (init noFailure emptyDb).db).db = (init noFailure emptyDb).db ∧
    (init noFailure emptyDb).db.tables.Nodup ∧
    (init noFailure emptyDb).db.indexes.Nodup ∧
    ∀ db0 : DbState, db0.tables ⊆ (init noFailure db0).db.tables := by
  refine ⟨by decide, by decide, by decide, by decide, ?_⟩
  intro db0
  rw [init_noFailure_db]
  exact foldl_applyStmt_tables_subset createStmts db0

end Db
